import Mathlib

/-!
# Dictionary app (`src/App.js`): a shallow embedding

The component `App` owns six pieces of React state and reads three values from
the `useSpeechRecognition` hook.  Handlers are embedded as functions from the
state they close over to the next state together with the ordered list of
side effects they perform (network requests, toasts, console output, commands
to the speech engine).  Values coming from the dictionary API are untyped
JavaScript values and are embedded as such.
-/

namespace DictionaryApp

/-! ## JavaScript values -/

/-- A JavaScript value as produced by `response.json()` or by reading a
property of such a value.  Numbers carry an integer payload: no handler does
arithmetic, only truthiness is ever observed.  Strings are sequences of
Unicode scalar values. -/
inductive JSValue where
  | undefined : JSValue
  | null : JSValue
  | bool (b : Bool) : JSValue
  | number (n : Int) : JSValue
  | string (s : String) : JSValue
  | array (items : List JSValue) : JSValue
  | object (fields : List (String × JSValue)) : JSValue

/-- A thrown JavaScript error; `message` is what `error.message` reads. -/
structure JSError where
  name : String
  message : String

/-- JavaScript truthiness (`ToBoolean`). -/
def truthy : JSValue → Bool
  | .undefined => false
  | .null => false
  | .bool b => b
  | .number n => n != 0
  | .string s => s != ""
  | .array _ => true
  | .object _ => true

/-- Own-property lookup in a parsed object; a missing key reads `undefined`. -/
def lookupField (key : String) : List (String × JSValue) → JSValue
  | [] => .undefined
  | (k, v) :: rest => if k == key then v else lookupField key rest

/-- The `TypeError` raised when a property is read from `undefined` or `null`.
The wording of the message is engine-specific; no handler inspects it. -/
def cannotRead (base key : String) : JSError :=
  ⟨"TypeError", "Cannot read properties of " ++ base ++ " (reading " ++ key ++ ")"⟩

/-- Property read `v[key]` for a data key (`word`, `phonetic`, `definitions`,
`definition`, `example`): none of these is a built-in member of strings,
arrays, numbers or booleans, so only objects can answer with a value.  The
same holds for `partOfSpeech`. -/
def getProp (v : JSValue) (key : String) : Except JSError JSValue :=
  match v with
  | .undefined => .error (cannotRead "undefined" key)
  | .null => .error (cannotRead "null" key)
  | .object fields => .ok (lookupField key fields)
  | _ => .ok .undefined

/-- Indexed read `v[0]`. -/
def getIndex0 (v : JSValue) : Except JSError JSValue :=
  match v with
  | .undefined => .error (cannotRead "undefined" "0")
  | .null => .error (cannotRead "null" "0")
  | .array [] => .ok .undefined
  | .array (x :: _) => .ok x
  | .string s =>
      match s.data with
      | [] => .ok .undefined
      | c :: _ => .ok (.string (String.mk [c]))
  | .object fields => .ok (lookupField "0" fields)
  | _ => .ok .undefined

/-! ## `String.prototype.trim` -/

/-- ECMAScript `WhiteSpace` and `LineTerminator` code points, the characters
`trim` removes. -/
def isWhiteSpace (c : Char) : Bool :=
  let n := c.toNat
  n == 0x0009 || n == 0x000A || n == 0x000B || n == 0x000C || n == 0x000D ||
  n == 0x0020 || n == 0x00A0 || n == 0x1680 || (0x2000 ≤ n && n ≤ 0x200A) ||
  n == 0x2028 || n == 0x2029 || n == 0x202F || n == 0x205F || n == 0x3000 ||
  n == 0xFEFF

/-- Strip white space from both ends of a character list. -/
def trimChars (cs : List Char) : List Char :=
  ((cs.dropWhile isWhiteSpace).reverse.dropWhile isWhiteSpace).reverse

/-- The method `trim()` of a string. -/
def jsTrim (s : String) : String :=
  String.mk (trimChars s.data)

/-! ## Side effects -/

/-- An observable side effect of a handler, in program order. -/
inductive Effect where
  | fetch (url : String)
  | toastSuccess (message : String)
  | toastError (message : String)
  | consoleError (label : String) (message : String)
  | stopListening
  | startListening (continuous : Bool)
  | resetTranscript
  deriving DecidableEq

/-- Whether an effect is a toast notification. -/
def Effect.isToast : Effect → Bool
  | .toastSuccess _ => true
  | .toastError _ => true
  | _ => false

/-- Whether an effect is an outbound network request. -/
def Effect.isRequest : Effect → Bool
  | .fetch _ => true
  | _ => false

/-! ## Component state -/

/-- The state of `App`: the `useState` cells (lines 18-23) and the values
returned by `useSpeechRecognition()` (lines 41-46). -/
structure AppState where
  token : String
  word : JSValue
  phonetic : JSValue
  data : JSValue
  footerSticked : Bool
  error : Option String
  transcript : String
  listening : Bool
  browserSupportsSpeechRecognition : Bool

/-- The state at mount: the initial values passed to `useState`; the speech
engine is idle with an empty transcript. -/
def initialState (supported : Bool) : AppState :=
  { token := "", word := .null, phonetic := .null, data := .null,
    footerSticked := true, error := none,
    transcript := "", listening := false,
    browserSupportsSpeechRecognition := supported }

/-! ## The network answer -/

/-- What `response.json()` yields: a parse failure (it rejects with the given
message) or the parsed value. -/
inductive Body where
  | unparsable (message : String)
  | parsed (value : JSValue)

/-- A received HTTP response. -/
structure Response where
  status : Nat
  statusText : String
  body : Body

/-- The getter `response.ok`: status in the range 200-299. -/
def Response.ok (r : Response) : Bool :=
  200 ≤ r.status && r.status ≤ 299

/-- How the promise returned by `fetch` settles: it rejects (transport error)
or resolves with a response. -/
inductive FetchOutcome where
  | networkError (message : String)
  | response (r : Response)

/-! ## `fetchWordData` (lines 48-68) -/

/-- The request URL built by the template literal on line 51. -/
def requestUrl (word : String) : String :=
  "https://api.dictionaryapi.dev/api/v2/entries/en/" ++ word

/-- The synchronous start of `fetchWordData(word)`: the call to `fetch`, up
to the first `await`. -/
def fetchWordDataCall (word : String) : List Effect :=
  [Effect.fetch (requestUrl word)]

/-- The `try` block after the request has settled (lines 50-62).  Returns the
state and effects reached, and the error thrown if the block was left by an
exception.  State writes made before a throw are kept. -/
def tryBlock (net : FetchOutcome) (s : AppState) :
    AppState × List Effect × Option JSError :=
  match net with
  | .networkError msg => (s, [], some ⟨"TypeError", msg⟩)
  | .response r =>
    if !r.ok then
      (s, [], some ⟨"Error", "Error: " ++ r.statusText⟩)
    else
      match r.body with
      | .unparsable msg => (s, [], some ⟨"SyntaxError", msg⟩)
      | .parsed data =>
        let s1 := { s with data := data }
        let fx := [Effect.toastSuccess "Result fetched!"]
        match getIndex0 data >>= fun e => getProp e "word" with
        | .error err => (s1, fx, some err)
        | .ok w =>
          let s2 := { s1 with word := w }
          match getIndex0 data >>= fun e => getProp e "phonetic" with
          | .error err => (s2, fx, some err)
          | .ok p =>
            ({ s2 with phonetic := p, error := none, footerSticked := false },
              fx, none)

/-- The `catch` block (lines 63-67). -/
def catchBlock (err : JSError) (s : AppState) : AppState × List Effect :=
  ({ s with error := some err.message },
    [Effect.consoleError "Fetch Error:" err.message,
     Effect.toastError "Word not found! Check the spelling."])

/-- The continuation of `fetchWordData` once the request has settled. -/
def fetchWordDataSettle (net : FetchOutcome) (s : AppState) :
    AppState × List Effect :=
  match tryBlock net s with
  | (s1, fx, none) => (s1, fx)
  | (s1, fx, some err) =>
    let (s2, fx2) := catchBlock err s1
    (s2, fx ++ fx2)

/-- A complete run of `fetchWordData(word)` against the network answer `net`. -/
def fetchWordData (word : String) (net : FetchOutcome) (s : AppState) :
    AppState × List Effect :=
  let (s1, fx) := fetchWordDataSettle net s
  (s1, fetchWordDataCall word ++ fx)

/-- The run ends in the `catch` branch. -/
def lookupFails (net : FetchOutcome) (s : AppState) : Bool :=
  (tryBlock net s).2.2.isSome

/-- The run reaches the end of the `try` block. -/
def lookupSucceeds (net : FetchOutcome) (s : AppState) : Bool :=
  (tryBlock net s).2.2.isNone

/-! ## Event handlers (lines 70-92) -/

/-- The handler `handleToggleListening`. -/
def handleToggleListening (s : AppState) : AppState × List Effect :=
  if s.listening then
    ({ s with token := s.transcript }, [Effect.stopListening])
  else
    (s, [Effect.resetTranscript, Effect.startListening true])

/-- The handler `handleSearchClick`: it calls `fetchWordData(token)` without
awaiting it, so only the synchronous start of that call belongs to the
handler. -/
def handleSearchClick (s : AppState) : AppState × List Effect :=
  if truthy (.string (jsTrim s.token)) then
    (s, fetchWordDataCall s.token)
  else
    (s, [Effect.toastError "Please enter a word to search"])

/-- The handler `handleKeyPress`. -/
def handleKeyPress (key : String) (s : AppState) : AppState × List Effect :=
  if key == "Enter" then handleSearchClick s else (s, [])

/-- The `onChange` handler of the input (line 116). -/
def handleChange (text : String) (s : AppState) : AppState × List Effect :=
  ({ s with token := text }, [])

/-- The mount effect of lines 94-98. -/
def supportEffect (s : AppState) : List Effect :=
  if !s.browserSupportsSpeechRecognition then
    [Effect.toastError "Browser does not support speech recognition."]
  else []

/-! ## Rendering of the result (lines 141-213) -/

/-- The heading of the result block (lines 141-149): rendered only when
`word` is truthy, with children `word` and `phonetic`. -/
def resultHeader (s : AppState) : Option (JSValue × JSValue) :=
  if truthy s.word then some (s.word, s.phonetic) else none

/-- One rendered line: the `div` with its React `key` and the expression
placed inside its `h1`. -/
structure Line where
  key : Nat
  child : JSValue

/-- The rendering of one meaning (lines 168-210).  `exampleLines` is `none`
when the "Example" heading and its list are not rendered. -/
structure MeaningBlock where
  partOfSpeech : JSValue
  definitionLines : List Line
  exampleLines : Option (List Line)

/-- The receiver of `.map`, `.some` and `.filter` must be an array; anything
else has no such method and the call throws. -/
def asArray (v : JSValue) (method : String) : Except JSError (List JSValue) :=
  match v with
  | .array items => .ok items
  | .undefined => .error (cannotRead "undefined" method)
  | .null => .error (cannotRead "null" method)
  | _ => .error ⟨"TypeError", method ++ " is not a function"⟩

/-- The call `items.map((x, index) => line index (f x))`, indices counted from
`start`. -/
def mapLines (f : JSValue → Except JSError JSValue) (start : Nat) :
    List JSValue → Except JSError (List Line)
  | [] => .ok []
  | x :: xs =>
    match f x with
    | .error err => .error err
    | .ok c =>
      match mapLines f (start + 1) xs with
      | .error err => .error err
      | .ok rest => .ok (⟨start, c⟩ :: rest)

/-- The call `items.some(p)`: stops at the first element satisfying `p`. -/
def jsSome (p : JSValue → Except JSError Bool) : List JSValue → Except JSError Bool
  | [] => .ok false
  | x :: xs =>
    match p x with
    | .error err => .error err
    | .ok true => .ok true
    | .ok false => jsSome p xs

/-- The call `items.filter(p)`. -/
def jsFilter (p : JSValue → Except JSError Bool) :
    List JSValue → Except JSError (List JSValue)
  | [] => .ok []
  | x :: xs =>
    match p x with
    | .error err => .error err
    | .ok keep =>
      match jsFilter p xs with
      | .error err => .error err
      | .ok rest => .ok (if keep then x :: rest else rest)

/-- The callback `(def) => def.example`, read for its truthiness. -/
def carriesExample (d : JSValue) : Except JSError Bool :=
  match getProp d "example" with
  | .error err => .error err
  | .ok e => .ok (truthy e)

/-- The JSX of one meaning (lines 168-210), evaluated in source order. -/
def renderMeaning (meaning : JSValue) : Except JSError MeaningBlock := do
  let pos ← getProp meaning "partOfSpeech"
  let defs ← getProp meaning "definitions"
  let items ← asArray defs "map"
  let definitionLines ← mapLines (fun d => getProp d "definition") 0 items
  let shown ← jsSome carriesExample items
  if shown then
    let kept ← jsFilter carriesExample items
    let exampleLines ← mapLines (fun d => getProp d "example") 0 kept
    pure ⟨pos, definitionLines, some exampleLines⟩
  else
    pure ⟨pos, definitionLines, none⟩

/-! ## The shape of API data -/

/-- A definition as the dictionary API delivers it: a `definition` text and an
optional `example` text. -/
structure Definition where
  definition : String
  exampleText : Option String

/-- A meaning as the dictionary API delivers it. -/
structure Meaning where
  partOfSpeech : String
  definitions : List Definition

/-- The parsed JSON object of a definition; an absent example is an absent
key. -/
def Definition.toJS (d : Definition) : JSValue :=
  match d.exampleText with
  | some e => .object [("definition", .string d.definition), ("example", .string e)]
  | none => .object [("definition", .string d.definition)]

/-- The parsed JSON object of a meaning. -/
def Meaning.toJS (m : Meaning) : JSValue :=
  .object [("partOfSpeech", .string m.partOfSpeech),
           ("definitions", .array (m.definitions.map Definition.toJS))]

/-- The example a definition carries: present and non-empty. -/
def Definition.carried (d : Definition) : Option String :=
  match d.exampleText with
  | some e => if e = "" then none else some e
  | none => none

/-- Lines for the given texts, in order, keyed `start`, `start + 1`, ... -/
def linesFrom (start : Nat) : List String → List Line
  | [] => []
  | t :: ts => ⟨start, .string t⟩ :: linesFrom (start + 1) ts

/-! ## The speech engine and the session -/

/-- Modelled from the spec: the speech capture engine behind
`SpeechRecognition.startListening`, `SpeechRecognition.stopListening` and
`resetTranscript` (package `react-speech-recognition`, whose code is not part
of the sources).  Stopping leaves the engine idle; resetting empties the
transcript buffer; starting begins capture, which cannot be started when the
environment reports no speech-recognition capability. -/
def engineReact (s : AppState) (e : Effect) : AppState :=
  match e with
  | .stopListening => { s with listening := false }
  | .startListening _ =>
    if s.browserSupportsSpeechRecognition then { s with listening := true } else s
  | .resetTranscript => { s with transcript := "" }
  | _ => s

/-- Modelled from the spec: the engine delivering a new transcript to the
hook; the transcript only accumulates while listening. -/
def engineHeard (t : String) (s : AppState) : AppState :=
  if s.listening then { s with transcript := t } else s

/-- The engine handles the commands of a handler in program order. -/
def engineRun (fx : List Effect) (s : AppState) : AppState :=
  fx.foldl engineReact s

/-- A discrete external event of a session. -/
inductive Event where
  | change (text : String)
  | click
  | keyPress (key : String)
  | toggle
  | heard (transcript : String)
  | settled (net : FetchOutcome)

/-- The reaction of the component to one event.  `heard` is the engine
delivering a new transcript; `settled` is the network answering a request,
upon which `fetchWordData` resumes. -/
def step (s : AppState) : Event → AppState × List Effect
  | .change text => handleChange text s
  | .click => handleSearchClick s
  | .keyPress key => handleKeyPress key s
  | .toggle =>
    let (s1, fx) := handleToggleListening s
    (engineRun fx s1, fx)
  | .heard t => (engineHeard t s, [])
  | .settled net => fetchWordDataSettle net s

/-- A session: the events handled one after the other, effects accumulated. -/
def run (s : AppState) : List Event → AppState × List Effect
  | [] => (s, [])
  | e :: es =>
    let (s1, fx1) := step s e
    let (s2, fx2) := run s1 es
    (s2, fx1 ++ fx2)

/-- No `settled` event of the session is a lookup that completes
successfully. -/
def noSuccessfulLookup (s : AppState) : List Event → Bool
  | [] => true
  | e :: es =>
    (match e with
     | .settled net => !lookupSucceeds net s
     | _ => true) && noSuccessfulLookup (step s e).1 es

/-! ## Sample data -/

/-- The entry for "hello" used in the examples. -/
def helloEntry : List (String × JSValue) :=
  [("word", .string "hello"), ("phonetic", .string "/həˈloʊ/")]

/-- A state showing the result for "hello". -/
def shownHello : AppState :=
  { initialState true with
    token := "hello", word := .string "hello", phonetic := .string "/həˈloʊ/",
    data := .array [.object helloEntry], footerSticked := false }

/-- The answer 404 Not Found. -/
def notFound : FetchOutcome :=
  .response ⟨404, "Not Found", .unparsable ""⟩

/-- The answer 200 OK carrying the entry for "hello". -/
def helloFound : FetchOutcome :=
  .response ⟨200, "OK", .parsed (.array [.object helloEntry])⟩

/-- The answer 200 OK carrying the empty list. -/
def emptyFound : FetchOutcome :=
  .response ⟨200, "OK", .parsed (.array [])⟩

/-! ## Auxiliary facts -/

theorem trimChars_of_all_white (cs : List Char)
    (h : ∀ c ∈ cs, isWhiteSpace c = true) : trimChars cs = [] := by
  have h1 : cs.dropWhile isWhiteSpace = [] := by
    rw [List.dropWhile_eq_nil_iff]
    exact h
  simp [trimChars, h1]

theorem truthy_string (x : String) : truthy (.string x) = true ↔ x ≠ "" := by
  simp [truthy]

/-! ## Confirming a query -/

/-- C1: when the query is empty or made only of white space, `handleSearchClick`
leaves the state alone, performs exactly one effect, the error toast "Please
enter a word to search", and issues no network request; the same holds when
the confirmation comes from the Enter key. -/
theorem handleSearchClick_blank (s : AppState)
    (h : ∀ c ∈ s.token.data, isWhiteSpace c = true) :
    handleSearchClick s = (s, [Effect.toastError "Please enter a word to search"]) ∧
    (∀ e ∈ (handleSearchClick s).2, e.isRequest = false) ∧
    handleKeyPress "Enter" s = (s, [Effect.toastError "Please enter a word to search"]) := by
  have ht : jsTrim s.token = "" := by
    unfold jsTrim
    rw [trimChars_of_all_white _ h]
  have hc : handleSearchClick s =
      (s, [Effect.toastError "Please enter a word to search"]) := by
    simp [handleSearchClick, ht, truthy]
  refine ⟨hc, ?_, ?_⟩
  · intro e he
    rw [hc] at he
    simp at he
    subst he
    rfl
  · simp [handleKeyPress, hc]

/-- C2: when the trimmed query is non-empty, `handleSearchClick` performs
exactly one effect, a request whose URL is the fixed endpoint followed by the
query exactly as stored (not trimmed); in particular exactly one request is
issued. -/
theorem handleSearchClick_nonblank (s : AppState) (h : jsTrim s.token ≠ "") :
    handleSearchClick s =
      (s, [Effect.fetch ("https://api.dictionaryapi.dev/api/v2/entries/en/" ++ s.token)]) ∧
    ((handleSearchClick s).2.filter Effect.isRequest).length = 1 := by
  have hc : handleSearchClick s =
      (s, [Effect.fetch ("https://api.dictionaryapi.dev/api/v2/entries/en/" ++ s.token)]) := by
    simp [handleSearchClick, truthy, h, fetchWordDataCall, requestUrl]
  refine ⟨hc, ?_⟩
  rw [hc]
  simp [Effect.isRequest]

/-- C1 at the query of three spaces. -/
theorem handleSearchClick_blank_witness :
    (∀ c ∈ ("   " : String).data, isWhiteSpace c = true) ∧
    handleSearchClick { initialState true with token := "   " } =
      ({ initialState true with token := "   " },
        [Effect.toastError "Please enter a word to search"]) :=
  ⟨by decide,
   (handleSearchClick_blank { initialState true with token := "   " } (by decide)).1⟩

/-- C2 at a query with a leading and a trailing space: both stay in the URL. -/
theorem handleSearchClick_nonblank_witness :
    jsTrim " hello " ≠ "" ∧
    (handleSearchClick { initialState true with token := " hello " }).2 =
      [Effect.fetch "https://api.dictionaryapi.dev/api/v2/entries/en/ hello "] :=
  ⟨by decide,
   congrArg Prod.snd
     (handleSearchClick_nonblank { initialState true with token := " hello " }
       (by decide)).1⟩

/-! ## The lookup -/

/-- The complete run against a non-success status, in closed form. -/
theorem fetchWordData_not_ok (s : AppState) (word : String) (r : Response)
    (h : r.ok = false) :
    fetchWordData word (.response r) s =
      ({ s with error := some ("Error: " ++ r.statusText) },
        [Effect.fetch (requestUrl word),
         Effect.consoleError "Fetch Error:" ("Error: " ++ r.statusText),
         Effect.toastError "Word not found! Check the spelling."]) := by
  simp [fetchWordData, fetchWordDataSettle, tryBlock, h, catchBlock, fetchWordDataCall]

/-- The complete run against a success status whose body starts with an
object, in closed form. -/
theorem fetchWordData_entry (s : AppState) (word : String) (r : Response)
    (fields : List (String × JSValue)) (rest : List JSValue)
    (hok : r.ok = true) (hbody : r.body = .parsed (.array (.object fields :: rest))) :
    fetchWordData word (.response r) s =
      ({ s with data := .array (.object fields :: rest),
                word := lookupField "word" fields,
                phonetic := lookupField "phonetic" fields,
                error := none, footerSticked := false },
        [Effect.fetch (requestUrl word), Effect.toastSuccess "Result fetched!"]) := by
  simp [fetchWordData, fetchWordDataSettle, tryBlock, hok, hbody, getIndex0, getProp,
    bind, Except.bind, fetchWordDataCall]

/-- C3: after a run of `fetchWordData` against a success status whose body is
a list starting with an entry object, the state cells `word` and `phonetic`
hold exactly the `word` and `phonetic` fields of that first entry, the result
heading (rendered when `word` is truthy) shows exactly these two values, and
any other response with the same first entry, whatever its remaining entries,
gives the same `word` and `phonetic`. -/
theorem fetchWordData_first_entry (s : AppState) (word : String) (r : Response)
    (fields : List (String × JSValue)) (rest : List JSValue)
    (hok : r.ok = true) (hbody : r.body = .parsed (.array (.object fields :: rest))) :
    (fetchWordData word (.response r) s).1.word = lookupField "word" fields ∧
    (fetchWordData word (.response r) s).1.phonetic = lookupField "phonetic" fields ∧
    resultHeader (fetchWordData word (.response r) s).1 =
      (if truthy (lookupField "word" fields)
        then some (lookupField "word" fields, lookupField "phonetic" fields)
        else none) ∧
    (∀ (s2 : AppState) (word2 : String) (r2 : Response) (rest2 : List JSValue),
      r2.ok = true → r2.body = .parsed (.array (.object fields :: rest2)) →
      (fetchWordData word2 (.response r2) s2).1.word =
        (fetchWordData word (.response r) s).1.word ∧
      (fetchWordData word2 (.response r2) s2).1.phonetic =
        (fetchWordData word (.response r) s).1.phonetic) := by
  rw [fetchWordData_entry s word r fields rest hok hbody]
  refine ⟨rfl, rfl, rfl, ?_⟩
  intro s2 word2 r2 rest2 hok2 hbody2
  rw [fetchWordData_entry s2 word2 r2 fields rest2 hok2 hbody2]
  exact ⟨rfl, rfl⟩

/-- C3 at the entry for "hello" followed by a second, different entry. -/
theorem fetchWordData_first_entry_witness :
    Response.ok ⟨200, "OK", .parsed (.array [.object helloEntry,
        .object [("word", .string "hullo")]])⟩ = true ∧
    (fetchWordData "hello"
      (.response ⟨200, "OK", .parsed (.array [.object helloEntry,
        .object [("word", .string "hullo")]])⟩) (initialState true)).1.word
      = lookupField "word" helloEntry ∧
    lookupField "word" helloEntry = .string "hello" ∧
    lookupField "phonetic" helloEntry = .string "/həˈloʊ/" :=
  ⟨by decide,
   (fetchWordData_first_entry (initialState true) "hello"
      ⟨200, "OK", .parsed (.array [.object helloEntry,
        .object [("word", .string "hullo")]])⟩
      helloEntry [.object [("word", .string "hullo")]] (by decide) rfl).1,
   rfl, rfl⟩

/-- C5: against any response with a non-success status, whatever the word and
the status text, `fetchWordData` leaves `word`, `phonetic` and `data` (and the
footer flag and the query) as they were, and the notifications it emits are
exactly one: the error toast "Word not found! Check the spelling."; no success
toast is emitted. -/
theorem fetchWordData_non_success (s : AppState) (word : String) (r : Response)
    (h : r.ok = false) :
    (fetchWordData word (.response r) s).1.word = s.word ∧
    (fetchWordData word (.response r) s).1.phonetic = s.phonetic ∧
    (fetchWordData word (.response r) s).1.data = s.data ∧
    (fetchWordData word (.response r) s).1.footerSticked = s.footerSticked ∧
    (fetchWordData word (.response r) s).1.token = s.token ∧
    (fetchWordData word (.response r) s).2.filter Effect.isToast =
      [Effect.toastError "Word not found! Check the spelling."] ∧
    (∀ m, Effect.toastSuccess m ∉ (fetchWordData word (.response r) s).2) := by
  rw [fetchWordData_not_ok s word r h]
  refine ⟨rfl, rfl, rfl, rfl, rfl, ?_, ?_⟩
  · simp [Effect.isToast]
  · intro m
    simp

/-- C5 at status 404 for the word "asdkfj". -/
theorem fetchWordData_non_success_witness :
    Response.ok ⟨404, "Not Found", .unparsable ""⟩ = false ∧
    (fetchWordData "asdkfj" (.response ⟨404, "Not Found", .unparsable ""⟩)
        (initialState true)).2.filter Effect.isToast =
      [Effect.toastError "Word not found! Check the spelling."] :=
  ⟨by decide,
   (fetchWordData_non_success (initialState true) "asdkfj"
      ⟨404, "Not Found", .unparsable ""⟩ (by decide)).2.2.2.2.2.1⟩

/-- C4 fails at a success status with the empty list as body: the run ends in
the `catch` branch (error toast emitted, after the success toast), `word` and
`phonetic` are kept, but `data` has been overwritten with the empty list, so
the stored response data differs from what it was before the call. -/
theorem fetchWordData_empty_body_overwrites_data :
    lookupFails emptyFound shownHello = true ∧
    (fetchWordData "zzz" emptyFound shownHello).2 =
      [Effect.fetch "https://api.dictionaryapi.dev/api/v2/entries/en/zzz",
       Effect.toastSuccess "Result fetched!",
       Effect.consoleError "Fetch Error:" "Cannot read properties of undefined (reading word)",
       Effect.toastError "Word not found! Check the spelling."] ∧
    (fetchWordData "zzz" emptyFound shownHello).1.word
      = shownHello.word ∧
    (fetchWordData "zzz" emptyFound shownHello).1.phonetic
      = shownHello.phonetic ∧
    (fetchWordData "zzz" emptyFound shownHello).1.data
      = .array [] ∧
    (fetchWordData "zzz" emptyFound shownHello).1.data
      ≠ shownHello.data := by
  refine ⟨rfl, by decide, rfl, rfl, rfl, ?_⟩
  intro h
  have h2 : JSValue.array [] = JSValue.array [.object helloEntry] := h
  simp at h2

/-- On every run that ends in the `catch` branch, `word` and `phonetic` are
what they were before; `data` too, unless the body was parsed. -/
theorem failed_lookup_keeps_word_phonetic (net : FetchOutcome) (s : AppState)
    (h : lookupFails net s = true) :
    (fetchWordDataSettle net s).1.word = s.word ∧
    (fetchWordDataSettle net s).1.phonetic = s.phonetic ∧
    ((∀ r data, net = .response r → r.ok = true → r.body ≠ .parsed data) →
      (fetchWordDataSettle net s).1.data = s.data) := by
  cases net with
  | networkError msg => simp [fetchWordDataSettle, tryBlock, catchBlock]
  | response r =>
    cases hok : r.ok with
    | false => simp [fetchWordDataSettle, tryBlock, catchBlock, hok]
    | true =>
      cases hb : r.body with
      | unparsable msg => simp [fetchWordDataSettle, tryBlock, catchBlock, hok, hb]
      | parsed data =>
        cases hi : getIndex0 data with
        | error err =>
          simp [fetchWordDataSettle, tryBlock, catchBlock, hok, hb, hi, bind, Except.bind]
        | ok e =>
          cases hw : getProp e "word" with
          | error err =>
            simp [fetchWordDataSettle, tryBlock, catchBlock, hok, hb, hi, hw, bind,
              Except.bind]
          | ok w =>
            cases hp : getProp e "phonetic" with
            | error err =>
              cases e <;> simp [getProp] at hw hp
            | ok p =>
              simp [lookupFails, tryBlock, hok, hb, hi, hw, hp, bind, Except.bind] at h

/-! ## Rendering a meaning -/

theorem getProp_definition_toJS (d : Definition) :
    getProp d.toJS "definition" = .ok (.string d.definition) := by
  cases d with
  | mk t e => cases e <;> rfl

theorem getProp_example_toJS (d : Definition) :
    getProp d.toJS "example" =
      .ok (match d.exampleText with
           | some e => .string e
           | none => .undefined) := by
  cases d with
  | mk t e =>
    cases e with
    | none => simp [Definition.toJS, getProp, lookupField]
    | some e => simp [Definition.toJS, getProp, lookupField]

theorem carriesExample_toJS (d : Definition) :
    carriesExample d.toJS = .ok d.carried.isSome := by
  unfold carriesExample
  rw [getProp_example_toJS]
  cases d with
  | mk t e =>
    cases e with
    | none => rfl
    | some e =>
      by_cases he : e = "" <;> simp [Definition.carried, truthy, he]

theorem mapLines_definition (defs : List Definition) (start : Nat) :
    mapLines (fun d => getProp d "definition") start (defs.map Definition.toJS) =
      .ok (linesFrom start (defs.map (fun d => d.definition))) := by
  induction defs generalizing start with
  | nil => rfl
  | cons d ds ih =>
    simp [mapLines, getProp_definition_toJS, ih, linesFrom]

theorem jsSome_carries (defs : List Definition) :
    jsSome carriesExample (defs.map Definition.toJS) =
      .ok (defs.any fun d => d.carried.isSome) := by
  induction defs with
  | nil => rfl
  | cons d ds ih =>
    simp only [List.map_cons, jsSome, carriesExample_toJS, List.any_cons]
    cases d.carried.isSome <;> simp [ih]

theorem jsFilter_carries (defs : List Definition) :
    jsFilter carriesExample (defs.map Definition.toJS) =
      .ok ((defs.filter fun d => d.carried.isSome).map Definition.toJS) := by
  induction defs with
  | nil => rfl
  | cons d ds ih =>
    simp only [List.map_cons, jsFilter, carriesExample_toJS, ih, List.filter_cons]
    cases d.carried.isSome <;> simp

theorem mapLines_example (defs : List Definition) (start : Nat) :
    mapLines (fun d => getProp d "example") start
        ((defs.filter fun d => d.carried.isSome).map Definition.toJS) =
      .ok (linesFrom start (defs.filterMap Definition.carried)) := by
  induction defs generalizing start with
  | nil => rfl
  | cons d ds ih =>
    cases hc : d.carried with
    | none =>
      simpa [List.filter_cons, List.filterMap_cons, hc] using ih start
    | some x =>
      have hx : getProp d.toJS "example" = .ok (.string x) := by
        rw [getProp_example_toJS]
        cases d with
        | mk t e =>
          cases e with
          | none => simp [Definition.carried] at hc
          | some e =>
            by_cases he : e = ""
            · simp [Definition.carried, he] at hc
            · simp [Definition.carried, he] at hc
              simp [hc]
      simp [List.filter_cons, List.filterMap_cons, hc, mapLines, hx, ih, linesFrom]

/-- The rendering of a meaning of the API shape, in closed form. -/
theorem renderMeaning_toJS (m : Meaning) :
    renderMeaning m.toJS =
      .ok ⟨.string m.partOfSpeech,
           linesFrom 0 (m.definitions.map fun d => d.definition),
           if (m.definitions.any fun d => d.carried.isSome)
             then some (linesFrom 0 (m.definitions.filterMap Definition.carried))
             else none⟩ := by
  have h1 : getProp m.toJS "partOfSpeech" = .ok (.string m.partOfSpeech) := by
    simp [Meaning.toJS, getProp, lookupField]
  have h2 : getProp m.toJS "definitions" =
      .ok (.array (m.definitions.map Definition.toJS)) := by
    simp [Meaning.toJS, getProp, lookupField]
  simp only [renderMeaning, h1, h2, asArray, bind, Except.bind, mapLines_definition,
    jsSome_carries, pure, Except.pure]
  cases hany : (m.definitions.any fun d => d.carried.isSome)
  · simp
  · simp [jsFilter_carries, mapLines_example]

theorem linesFrom_length (start : Nat) (ts : List String) :
    (linesFrom start ts).length = ts.length := by
  induction ts generalizing start with
  | nil => rfl
  | cons t ts ih => simp [linesFrom, ih]

theorem filterMap_carried_of_not_any (defs : List Definition)
    (h : (defs.any fun d => d.carried.isSome) = false) :
    defs.filterMap Definition.carried = [] := by
  induction defs with
  | nil => rfl
  | cons d ds ih =>
    simp only [List.any_cons, Bool.or_eq_false_iff] at h
    cases hc : d.carried with
    | none => simpa [List.filterMap_cons, hc] using ih h.2
    | some x => simp [hc] at h

theorem carried_isSome_iff (d : Definition) :
    d.carried.isSome = true ↔ ∃ e, d.exampleText = some e ∧ e ≠ "" := by
  cases d with
  | mk t e =>
    cases e with
    | none => simp [Definition.carried]
    | some e => by_cases he : e = "" <;> simp [Definition.carried, he]

/-- C6: for every meaning of the API shape the rendering succeeds; its
definition lines are the definition texts of all definitions, one line each,
in order, keyed from 0; its example lines are exactly the examples of the
definitions that carry a present, non-empty example, in their original order,
keyed from 0.  For the two definitions "a greeting" (no example) and "an
expression of surprise" (with an example) there are two definition lines and
exactly one example line. -/
theorem renderMeaning_lines (m : Meaning) :
    (∃ block, renderMeaning m.toJS = .ok block ∧
      block.definitionLines = linesFrom 0 (m.definitions.map fun d => d.definition) ∧
      block.definitionLines.length = m.definitions.length ∧
      block.exampleLines.getD [] =
        linesFrom 0 (m.definitions.filterMap Definition.carried)) ∧
    renderMeaning (Meaning.toJS ⟨"exclamation",
        [⟨"a greeting", none⟩,
         ⟨"an expression of surprise", some "\"Hello!\" she cried"⟩]⟩) =
      .ok ⟨.string "exclamation",
           [⟨0, .string "a greeting"⟩, ⟨1, .string "an expression of surprise"⟩],
           some [⟨0, .string "\"Hello!\" she cried"⟩]⟩ := by
  constructor
  · refine ⟨_, renderMeaning_toJS m, rfl, ?_, ?_⟩
    · simp [linesFrom_length]
    · cases hany : (m.definitions.any fun d => d.carried.isSome)
      · simp [filterMap_carried_of_not_any _ hany, linesFrom]
      · simp
  · rfl

/-- C7: for every meaning of the API shape, the "Example" heading is rendered
if and only if some definition carries a present, non-empty example; when no
definition has an example field the heading is absent; and whenever the
heading is rendered, the list under it is non-empty. -/
theorem renderMeaning_example_heading (m : Meaning) :
    ∃ block, renderMeaning m.toJS = .ok block ∧
      (block.exampleLines.isSome = true ↔
        ∃ d ∈ m.definitions, ∃ e, d.exampleText = some e ∧ e ≠ "") ∧
      ((∀ d ∈ m.definitions, d.exampleText = none) → block.exampleLines = none) ∧
      (∀ lines, block.exampleLines = some lines → lines ≠ []) := by
  have hiff : (m.definitions.any fun d => d.carried.isSome) = true ↔
      ∃ d ∈ m.definitions, ∃ e, d.exampleText = some e ∧ e ≠ "" := by
    rw [List.any_eq_true]
    constructor
    · rintro ⟨d, hd, hc⟩
      exact ⟨d, hd, (carried_isSome_iff d).1 hc⟩
    · rintro ⟨d, hd, hc⟩
      exact ⟨d, hd, (carried_isSome_iff d).2 hc⟩
  refine ⟨_, renderMeaning_toJS m, ?_, ?_, ?_⟩
  · rw [← hiff]
    cases (m.definitions.any fun d => d.carried.isSome) <;> simp
  · intro hnone
    have hfalse : (m.definitions.any fun d => d.carried.isSome) = false := by
      cases hany : (m.definitions.any fun d => d.carried.isSome)
      · rfl
      · obtain ⟨d, hd, e, he, _⟩ := hiff.1 hany
        rw [hnone d hd] at he
        cases he
    simp [hfalse]
  · intro lines hl
    cases hany : (m.definitions.any fun d => d.carried.isSome)
    · simp [hany] at hl
    · simp only [hany, if_true, Option.some.injEq] at hl
      rw [List.any_eq_true] at hany
      obtain ⟨d, hd, hc⟩ := hany
      intro hnil
      have hlen : (m.definitions.filterMap Definition.carried).length = 0 := by
        rw [← linesFrom_length 0, hl, hnil]
        rfl
      have hmem : ∃ x, d.carried = some x := Option.isSome_iff_exists.1 hc
      obtain ⟨x, hx⟩ := hmem
      have : x ∈ m.definitions.filterMap Definition.carried :=
        List.mem_filterMap.2 ⟨d, hd, hx⟩
      rw [List.length_eq_zero] at hlen
      rw [hlen] at this
      cases this

/-! ## The footer flag -/

theorem settle_frame (net : FetchOutcome) (s : AppState) :
    (fetchWordDataSettle net s).1.footerSticked =
      (if lookupSucceeds net s then false else s.footerSticked) ∧
    (fetchWordDataSettle net s).1.token = s.token ∧
    (fetchWordDataSettle net s).1.transcript = s.transcript ∧
    (fetchWordDataSettle net s).1.listening = s.listening ∧
    (fetchWordDataSettle net s).1.browserSupportsSpeechRecognition =
      s.browserSupportsSpeechRecognition := by
  cases net with
  | networkError msg => simp [fetchWordDataSettle, lookupSucceeds, tryBlock, catchBlock]
  | response r =>
    cases hok : r.ok with
    | false => simp [fetchWordDataSettle, lookupSucceeds, tryBlock, catchBlock, hok]
    | true =>
      cases hb : r.body with
      | unparsable msg =>
        simp [fetchWordDataSettle, lookupSucceeds, tryBlock, catchBlock, hok, hb]
      | parsed data =>
        cases hw : (getIndex0 data >>= fun e => getProp e "word") with
        | error err =>
          simp only [fetchWordDataSettle, lookupSucceeds, tryBlock, catchBlock, hok, hb, hw]
          simp
        | ok w =>
          cases hp : (getIndex0 data >>= fun e => getProp e "phonetic") with
          | error err =>
            simp only [fetchWordDataSettle, lookupSucceeds, tryBlock, catchBlock, hok, hb,
              hw, hp]
            simp
          | ok p =>
            simp only [fetchWordDataSettle, lookupSucceeds, tryBlock, catchBlock, hok, hb,
              hw, hp]
            simp

theorem settle_footerSticked (net : FetchOutcome) (s : AppState) :
    (fetchWordDataSettle net s).1.footerSticked =
      (if lookupSucceeds net s then false else s.footerSticked) :=
  (settle_frame net s).1

theorem toggle_footerSticked (s : AppState) :
    (step s .toggle).1.footerSticked = s.footerSticked := by
  unfold step handleToggleListening
  by_cases hl : s.listening = true
  · simp [hl, engineRun, engineReact]
  · by_cases hb : s.browserSupportsSpeechRecognition = true
    · simp [hl, hb, engineRun, engineReact]
    · simp [hl, hb, engineRun, engineReact]

theorem handleSearchClick_state (s : AppState) : (handleSearchClick s).1 = s := by
  unfold handleSearchClick
  split <;> rfl

theorem handleKeyPress_state (key : String) (s : AppState) :
    (handleKeyPress key s).1 = s := by
  unfold handleKeyPress
  split
  · exact handleSearchClick_state s
  · rfl

theorem step_footerSticked (s : AppState) (e : Event) :
    (step s e).1.footerSticked =
      (match e with
       | .settled net => if lookupSucceeds net s then false else s.footerSticked
       | _ => s.footerSticked) := by
  cases e with
  | change text => rfl
  | click => simp [step, handleSearchClick_state]
  | keyPress key => simp [step, handleKeyPress_state]
  | toggle => exact toggle_footerSticked s
  | heard t =>
    simp only [step, engineHeard]
    split <;> rfl
  | settled net => exact settle_footerSticked net s

theorem run_cons (s : AppState) (e : Event) (es : List Event) :
    (run s (e :: es)).1 = (run (step s e).1 es).1 := by
  rfl

theorem run_footerSticked_false (s : AppState) (es : List Event)
    (h : s.footerSticked = false) : (run s es).1.footerSticked = false := by
  induction es generalizing s with
  | nil => exact h
  | cons e es ih =>
    rw [run_cons]
    apply ih
    rw [step_footerSticked]
    cases e <;> simp [h]

theorem run_footerSticked_true (s : AppState) (es : List Event)
    (h : s.footerSticked = true) (hn : noSuccessfulLookup s es = true) :
    (run s es).1.footerSticked = true := by
  induction es generalizing s with
  | nil => exact h
  | cons e es ih =>
    rw [run_cons]
    simp only [noSuccessfulLookup, Bool.and_eq_true] at hn
    apply ih _ _ hn.2
    rw [step_footerSticked]
    cases e with
    | settled net =>
      have h1 := hn.1
      simp only [Bool.not_eq_true_eq_eq_false] at h1
      simp [h1, h]
    | _ => simp [h]

/-- C8: the footer flag is true in the initial state; it is still true after
any session in which no lookup has completed successfully; and from any state,
once a lookup completes successfully the flag is false right away and after
every further sequence of keystrokes, confirmations, voice toggles, transcript
updates and lookups, failing ones included. -/
theorem footerSticked_session (supported : Bool) (before : List Event)
    (s : AppState) (net : FetchOutcome) (later : List Event)
    (hnone : noSuccessfulLookup (initialState supported) before = true)
    (hsucc : lookupSucceeds net s = true) :
    (initialState supported).footerSticked = true ∧
    (run (initialState supported) before).1.footerSticked = true ∧
    (step s (.settled net)).1.footerSticked = false ∧
    (run (step s (.settled net)).1 later).1.footerSticked = false := by
  have hstep : (step s (.settled net)).1.footerSticked = false := by
    rw [step_footerSticked]
    simp [hsucc]
  exact ⟨rfl, run_footerSticked_true _ _ rfl hnone, hstep,
    run_footerSticked_false _ _ hstep⟩

/-- C8 on a session that fails a lookup, then succeeds, then fails again. -/
theorem footerSticked_session_witness :
    noSuccessfulLookup (initialState true)
      [.change "asdkfj", .click, .settled notFound, .toggle] = true ∧
    lookupSucceeds helloFound (initialState true) = true ∧
    (run (initialState true)
      [.change "asdkfj", .click, .settled notFound, .toggle]).1.footerSticked = true ∧
    (run (step (initialState true) (.settled helloFound)).1
      [.change "asdkfj", .keyPress "Enter", .settled notFound, .settled emptyFound,
       .toggle]).1.footerSticked = false :=
  ⟨by decide, by decide,
   (footerSticked_session true [.change "asdkfj", .click, .settled notFound, .toggle]
      (initialState true) helloFound
      [.change "asdkfj", .keyPress "Enter", .settled notFound, .settled emptyFound,
       .toggle] (by decide) (by decide)).2.1,
   (footerSticked_session true [.change "asdkfj", .click, .settled notFound, .toggle]
      (initialState true) helloFound
      [.change "asdkfj", .keyPress "Enter", .settled notFound, .settled emptyFound,
       .toggle] (by decide) (by decide)).2.2.2⟩

/-! ## Voice capture -/

/-- C9: toggling while listening writes the transcript into the query exactly
as it is, commands the engine to stop (its only effect, so no request is
issued), and leaves the engine idle.  Toggling on, hearing "dictionary" and
toggling off ends with the query "dictionary", the engine idle and no request
issued. -/
theorem handleToggleListening_stop (s : AppState) (h : s.listening = true) :
    (handleToggleListening s).1.token = s.transcript ∧
    (handleToggleListening s).2 = [Effect.stopListening] ∧
    (step s .toggle).1.token = s.transcript ∧
    (step s .toggle).1.listening = false ∧
    (∀ e ∈ (step s .toggle).2, e.isRequest = false) ∧
    (run (initialState true) [.toggle, .heard "dictionary", .toggle]).1.token
      = "dictionary" ∧
    (run (initialState true) [.toggle, .heard "dictionary", .toggle]).1.listening
      = false ∧
    (run (initialState true) [.toggle, .heard "dictionary", .toggle]).2.filter
      Effect.isRequest = [] := by
  refine ⟨?_, ?_, ?_, ?_, ?_, rfl, rfl, by decide⟩
  · simp [handleToggleListening, h]
  · simp [handleToggleListening, h]
  · simp [step, handleToggleListening, h, engineRun, engineReact]
  · simp [step, handleToggleListening, h, engineRun, engineReact]
  · intro e he
    simp [step, handleToggleListening, h] at he
    subst he
    rfl

theorem step_idle_unsupported (s : AppState) (e : Event)
    (hs : s.browserSupportsSpeechRecognition = false) (hl : s.listening = false) :
    (step s e).1.browserSupportsSpeechRecognition = false ∧
    (step s e).1.listening = false := by
  cases e with
  | change text => exact ⟨hs, hl⟩
  | click => simp [step, handleSearchClick_state, hs, hl]
  | keyPress key => simp [step, handleKeyPress_state, hs, hl]
  | toggle => simp [step, handleToggleListening, hs, hl, engineRun, engineReact]
  | heard t => simp [step, engineHeard, hs, hl]
  | settled net =>
    have hf := settle_frame net s
    exact ⟨hf.2.2.2.2.trans hs, hf.2.2.2.1.trans hl⟩

/-- The handler itself does not consult the capability flag: activated while
idle it commands the engine to reset and start, supported or not. -/
theorem handleToggleListening_idle (s : AppState) (hl : s.listening = false) :
    handleToggleListening s = (s, [Effect.resetTranscript, Effect.startListening true]) := by
  simp [handleToggleListening, hl]

/-- C10: when the environment reports no speech-recognition capability and
the engine is idle, the error toast "Browser does not support speech
recognition." is due at mount, an activation of the voice toggle leaves the
engine idle, and so does every session: no sequence of events starts a
capture session. -/
theorem no_capture_without_support (s : AppState) (events : List Event)
    (hs : s.browserSupportsSpeechRecognition = false) (hl : s.listening = false) :
    supportEffect s = [Effect.toastError "Browser does not support speech recognition."] ∧
    (step s .toggle).1.listening = false ∧
    (run s events).1.listening = false := by
  refine ⟨by simp [supportEffect, hs], (step_idle_unsupported s .toggle hs hl).2, ?_⟩
  induction events generalizing s with
  | nil => exact hl
  | cons e es ih =>
    rw [run_cons]
    exact ih _ (step_idle_unsupported s e hs hl).1 (step_idle_unsupported s e hs hl).2

/-- C9 at a transcript with surrounding spaces: the query receives it
untrimmed. -/
theorem handleToggleListening_stop_witness :
    AppState.listening
      { initialState true with listening := true, transcript := " dictionary " } = true ∧
    (step { initialState true with listening := true, transcript := " dictionary " }
      .toggle).1.token = " dictionary " ∧
    (step { initialState true with listening := true, transcript := " dictionary " }
      .toggle).1.listening = false :=
  ⟨rfl,
   (handleToggleListening_stop
      { initialState true with listening := true, transcript := " dictionary " } rfl).2.2.1,
   (handleToggleListening_stop
      { initialState true with listening := true, transcript := " dictionary " }
      rfl).2.2.2.1⟩

/-- C10 from the initial state of an environment without the capability. -/
theorem no_capture_without_support_witness :
    (initialState false).browserSupportsSpeechRecognition = false ∧
    (initialState false).listening = false ∧
    (run (initialState false)
      [.toggle, .heard "dictionary", .toggle, .click]).1.listening = false :=
  ⟨rfl, rfl,
   (no_capture_without_support (initialState false)
      [.toggle, .heard "dictionary", .toggle, .click] rfl rfl).2.2⟩

end DictionaryApp
